import Mathlib

/-!
Shallow embedding of the SpyHunt outbound HTTP request layer
(`spyhunt/network/client.py`, `spyhunt/network/cache.py`,
`spyhunt/network/rate_limiter.py`) together with theorems settling the
behavioural claims about it.

Modelling conventions:
* Python floats (wall-clock timestamps, token counts, TTLs) are embedded as
  rationals `ℚ`; every property proved is order/field-theoretic and does not
  depend on floating-point rounding.
* Python dicts are embedded as insertion-ordered association lists
  (`List (String × _)`): assignment to an existing key keeps its position,
  assignment to a fresh key appends, deletion removes the key.
* Each operation that reads the wall clock takes the current time as an
  explicit `now : ℚ` argument.
* Logging calls are elided: they do not affect any observable state.
-/

namespace Spyhunt

/-! ## Ordered-dict primitives (Python `dict` semantics) -/

/-- Lookup in an insertion-ordered association list, as Python `d[k]` /
`k in d`. Returns the value of the first pair whose key matches. -/
def lookupDict {α : Type} : List (String × α) → String → Option α
  | [], _ => none
  | (k, v) :: rest, key => if k = key then some v else lookupDict rest key

/-- Replacement of the value at an existing key, keeping its position,
as Python `d[k] = v` when `k in d`. -/
def updateDict {α : Type} : List (String × α) → String → α → List (String × α)
  | [], _, _ => []
  | p :: rest, k, v =>
    if p.1 = k then (k, v) :: updateDict rest k v else p :: updateDict rest k v

/-- Removal of a key, as Python `del d[k]` / `d.pop(k, None)`. -/
def eraseDict {α : Type} (m : List (String × α)) (k : String) :
    List (String × α) :=
  m.filter (fun p => decide (p.1 ≠ k))

/-- Assignment `d[k] = v`: update in place when the key exists, append
otherwise. -/
def insertDict {α : Type} (m : List (String × α)) (k : String) (v : α) :
    List (String × α) :=
  if (lookupDict m k).isSome then updateDict m k v else m ++ [(k, v)]

/-! ## HTTPResponse — `client.py` lines 25-48 -/

/-- The `HTTPResponse` dataclass of `client.py` (lines 25-35). `content`
(raw bytes) and `text` are both embedded as `String`. The `from_cache`
field carries its dataclass default `False` unless a constructor sets it. -/
structure HTTPResponse where
  url : String
  status_code : ℤ
  headers : List (String × String)
  content : String
  text : String
  encoding : String
  response_time : ℚ
  from_cache : Bool
deriving DecidableEq, Repr

/-- Python truthiness of an `HTTPResponse`: its `__bool__` (lines 46-48)
returns `200 <= status_code < 400`. -/
def HTTPResponse.isTruthy (r : HTTPResponse) : Bool :=
  decide (200 ≤ r.status_code) && decide (r.status_code < 400)

/-! ## ResponseCache — `cache.py` -/

/-- One cache entry dict as built by `ResponseCache.set` /
`_save_to_disk`: `{response, cached_at, expires_at, last_accessed}`. -/
structure CacheEntry where
  response : HTTPResponse
  cached_at : ℚ
  expires_at : ℚ
  last_accessed : ℚ
deriving DecidableEq, Repr

/-- The `ResponseCache` object (cache.py lines 22-54): configuration plus
the memory tier `_memory_cache` and, when `disk_cache` is on, the set of
`.cache` artifacts on disk, both keyed by the cache key. The `RLock`,
logger and directory path are elided; all operations here are the
single-threaded bodies executed under that lock. -/
structure ResponseCache where
  max_size : ℕ
  default_ttl : ℚ
  disk_cache : Bool
  memory : List (String × CacheEntry)
  disk : List (String × CacheEntry)
deriving DecidableEq, Repr

/-- Construction of a `ResponseCache` (cache.py `__init__`): both tiers
start empty. -/
def ResponseCache.init (max_size : ℕ) (default_ttl : ℚ) (disk_cache : Bool) :
    ResponseCache :=
  ⟨max_size, default_ttl, disk_cache, [], []⟩

/-- Ordering used by Python `sorted(params.items())` on string pairs:
lexicographic on (key, value). -/
def paramLe (a b : String × String) : Prop :=
  a.1 < b.1 ∨ (a.1 = b.1 ∧ a.2 ≤ b.2)

instance : DecidableRel paramLe := fun a b =>
  inferInstanceAs (Decidable (a.1 < b.1 ∨ (a.1 = b.1 ∧ a.2 ≤ b.2)))

/-- Rendering of one key/value pair inside `str(sorted(params.items()))`.
Python would also quote the two strings; the quoting is omitted, which only
coarsens the rendering and is never used to separate keys below. -/
def renderPair (p : String × String) : String :=
  "(" ++ p.1 ++ ", " ++ p.2 ++ ")"

/-- Rendering of `str(sorted(params.items()))` (cache.py line 60). -/
def renderPairs (ps : List (String × String)) : String :=
  "[" ++ String.intercalate ", " (ps.map renderPair) ++ "]"

/-- The string `key_data` that `ResponseCache._generate_key` (cache.py
lines 56-62) feeds to sha256: `f"{method}:{url}"`, extended with
`f":{str(sorted(params.items()))}"` when `params` is truthy (a non-`None`,
non-empty dict). -/
def generateKeyData (url method : String)
    (params : Option (List (String × String))) : String :=
  match params with
  | none => method ++ ":" ++ url
  | some ps =>
    if ps.isEmpty then method ++ ":" ++ url
    else method ++ ":" ++ url ++ ":" ++ renderPairs (List.insertionSort paramLe ps)

/-- The cache key of `ResponseCache._generate_key`. The source returns
`hashlib.sha256(key_data.encode()).hexdigest()`; the digest is a fixed
deterministic function of `key_data`, and every theorem below depends only
on equality of keys, so it is embedded as the digest input itself. -/
def generateKey (url method : String)
    (params : Option (List (String × String))) : String :=
  generateKeyData url method params

/-- Expiry test `ResponseCache._is_expired` (cache.py lines 64-66):
`time.time() > entry['expires_at']`. -/
def isExpired (now : ℚ) (e : CacheEntry) : Bool :=
  decide (now > e.expires_at)

/-- Ordering used by `sorted(self._memory_cache.items(),
key=lambda x: x[1]['last_accessed'])` in `_cleanup_memory_cache`. -/
def entryLe (a b : String × CacheEntry) : Prop :=
  a.2.last_accessed ≤ b.2.last_accessed

instance : DecidableRel entryLe := fun a b =>
  inferInstanceAs (Decidable (a.2.last_accessed ≤ b.2.last_accessed))

instance : IsTotal (String × CacheEntry) entryLe :=
  ⟨fun a b => le_total a.2.last_accessed b.2.last_accessed⟩

instance : IsTrans (String × CacheEntry) entryLe :=
  ⟨fun _ _ _ hab hbc => le_trans hab hbc⟩

/-- The function `ResponseCache._cleanup_memory_cache` (cache.py lines
68-91): drop every expired entry, then, if still over `max_size`, sort the
remaining entries ascending by `last_accessed` (a stable sort, like
Python's) and delete the first `len - max_size` of them from the dict,
which keeps the survivors in their original dict order. -/
def ResponseCache.cleanupMemoryCache (st : ResponseCache) (now : ℚ) :
    ResponseCache :=
  let live := st.memory.filter (fun p => !isExpired now p.2)
  if st.max_size < live.length then
    let sorted := List.insertionSort entryLe live
    let evictKeys := (sorted.take (live.length - st.max_size)).map Prod.fst
    { st with memory := live.filter (fun p => !(decide (p.1 ∈ evictKeys))) }
  else
    { st with memory := live }

/-- The function `ResponseCache._load_from_disk` (cache.py lines 99-121)
together with its artifact-deletion side effect: a hit whose entry is
expired deletes the artifact and is a miss. Artifacts are modelled as
well-formed entries; a corrupted artifact behaves like the expired case
(deleted, miss) and is not distinguished here. -/
def ResponseCache.loadFromDisk (st : ResponseCache) (key : String) (now : ℚ) :
    Option HTTPResponse × ResponseCache :=
  if st.disk_cache then
    match lookupDict st.disk key with
    | none => (none, st)
    | some e =>
      if isExpired now e then (none, { st with disk := eraseDict st.disk key })
      else (some e.response, st)
  else (none, st)

/-- The disk phase of `ResponseCache.get` (cache.py lines 173-185): load
from disk; a truthy loaded response is promoted into the memory tier with a
fresh `expires_at = now + default_ttl` before being returned. -/
def ResponseCache.getDiskPhase (st : ResponseCache) (key : String) (now : ℚ) :
    Option HTTPResponse × ResponseCache :=
  match st.loadFromDisk key now with
  | (some r, st1) =>
    if r.isTruthy then
      (some r,
       { st1 with memory := insertDict st1.memory key ⟨r, now, now + st1.default_ttl, now⟩ })
    else (none, st1)
  | (none, st1) => (none, st1)

/-- The method `ResponseCache.get` (cache.py lines 143-185): compute the
key; a live memory entry bumps `last_accessed` and is returned; an expired
memory entry is deleted and control falls through to the disk phase, as
does a memory miss. -/
def ResponseCache.get (st : ResponseCache) (url method : String)
    (params : Option (List (String × String))) (now : ℚ) :
    Option HTTPResponse × ResponseCache :=
  let key := generateKey url method params
  match lookupDict st.memory key with
  | some e =>
    if isExpired now e then
      ResponseCache.getDiskPhase { st with memory := eraseDict st.memory key } key now
    else
      (some e.response,
       { st with memory := updateDict st.memory key { e with last_accessed := now } })
  | none => ResponseCache.getDiskPhase st key now

/-- The method `ResponseCache.set` (cache.py lines 187-223): build the
entry with `expires_at = now + ttl` (default `default_ttl`), assign it into
the memory tier, run `_cleanup_memory_cache`, and, when the disk tier is
enabled, persist the same data as an artifact (`_save_to_disk`, whose I/O
failures are swallowed and hence not modelled). -/
def ResponseCache.set (st : ResponseCache) (url : String)
    (response : HTTPResponse) (method : String)
    (params : Option (List (String × String))) (ttl : Option ℚ) (now : ℚ) :
    ResponseCache :=
  let t := ttl.getD st.default_ttl
  let key := generateKey url method params
  let entry : CacheEntry := ⟨response, now, now + t, now⟩
  let st1 := ResponseCache.cleanupMemoryCache
    { st with memory := insertDict st.memory key entry } now
  if st1.disk_cache then
    { st1 with disk := insertDict st1.disk key ⟨response, now, now + t, now⟩ }
  else st1

/-! ## RateLimiter — `rate_limiter.py` -/

/-- Configuration error taxonomy relevant to construction
(`core/exceptions.py`, `ConfigurationError`). -/
inductive ConfigError
  | configurationError
deriving DecidableEq, Repr

/-- The `RateLimiter` object (rate_limiter.py lines 20-38): configuration
plus mutable token-bucket state. The `Lock`, logger and lazily created
async semaphore are elided; operations are the critical-section bodies. -/
structure RateLimiter where
  requests_per_second : ℚ
  window_size : ℚ
  tokens : ℚ
  max_tokens : ℚ
  last_update : ℚ
  request_times : List ℚ
deriving DecidableEq, Repr

/-- The constructor `RateLimiter.__init__` (rate_limiter.py lines 20-38).
The body is straight-line assignment with no validation branch of any
kind, so the `Except` codomain, which records whether construction can be
rejected, is constantly `ok`. -/
def RateLimiter.init (requests_per_second window_size now : ℚ) :
    Except ConfigError RateLimiter :=
  Except.ok
    { requests_per_second := requests_per_second
      window_size := window_size
      tokens := requests_per_second
      max_tokens := requests_per_second
      last_update := now
      request_times := [] }

/-- The method `RateLimiter._update_tokens` (rate_limiter.py lines 40-45):
`tokens = min(max_tokens, tokens + elapsed * requests_per_second)`. -/
def RateLimiter.updateTokens (s : RateLimiter) (now : ℚ) : RateLimiter :=
  { s with
    tokens := min s.max_tokens (s.tokens + (now - s.last_update) * s.requests_per_second)
    last_update := now }

/-- The sleep duration computed by `RateLimiter.acquire` when tokens are
insufficient: `(tokens_requested - self.tokens) / self.requests_per_second`
evaluated after the first refill (rate_limiter.py line 63). -/
def RateLimiter.waitTime (s : RateLimiter) (cost : ℕ) (t1 : ℚ) : ℚ :=
  ((cost : ℚ) - (RateLimiter.updateTokens s t1).tokens) / s.requests_per_second

/-- The method `RateLimiter.acquire` (rate_limiter.py lines 47-73). `t1`
is the clock value at the first critical section; if the refilled tokens
cover `cost` the deduction happens immediately and no wait occurs (second
component `false`). Otherwise the caller sleeps outside the lock and
re-enters at clock value `t2`, where the source refills once more and then
deducts unconditionally, with no re-check of the balance. A run of the
compiled code always has `t2 ≥ t1 + waitTime s cost t1`; `t2` is left as a
parameter and theorems add that inequality as a hypothesis where needed. -/
def RateLimiter.acquire (s : RateLimiter) (cost : ℕ) (t1 t2 : ℚ) :
    RateLimiter × Bool :=
  let s1 := RateLimiter.updateTokens s t1
  if (cost : ℚ) ≤ s1.tokens then
    ({ s1 with tokens := s1.tokens - (cost : ℚ),
               request_times := s1.request_times ++ [t1] }, false)
  else
    let s2 := RateLimiter.updateTokens s1 t2
    ({ s2 with tokens := s2.tokens - (cost : ℚ),
               request_times := s2.request_times ++ [t2] }, true)

/-! ## ProxyRotator — `client.py` lines 82-113 -/

/-- The `ProxyRotator` object (client.py lines 82-89): the configured pool,
the working/failed partition and the round-robin cursor. -/
structure ProxyRotator where
  proxies : List String
  working_proxies : List String
  failed_proxies : List String
  current_index : ℕ
deriving DecidableEq, Repr

/-- The constructor `ProxyRotator.__init__`: working starts as a copy of
the pool, failed empty, cursor 0. -/
def ProxyRotator.init (ps : List String) : ProxyRotator :=
  ⟨ps, ps, [], 0⟩

/-- Outcome of `ProxyRotator.get_next`: `none` when the working list is
empty, a proxy endpoint otherwise — unless the cursor is out of range, in
which case the subscript `self.working_proxies[self.current_index]` raises
an uncaught `IndexError` before the cursor is touched. -/
inductive GetNextOutcome
  | noProxy
  | proxy (p : String)
  | indexError
deriving DecidableEq, Repr

/-- The method `ProxyRotator.get_next` (client.py lines 91-102). The
returned endpoint `p` stands for the dict `{http: p, https: p}` the source
builds from it. -/
def ProxyRotator.getNext (st : ProxyRotator) : GetNextOutcome × ProxyRotator :=
  if st.working_proxies.isEmpty then (GetNextOutcome.noProxy, st)
  else if h : st.current_index < st.working_proxies.length then
    (GetNextOutcome.proxy (st.working_proxies.get ⟨st.current_index, h⟩),
     { st with current_index := (st.current_index + 1) % st.working_proxies.length })
  else (GetNextOutcome.indexError, st)

/-- The method `ProxyRotator.mark_failed` (client.py lines 104-108):
`list.remove` drops the first occurrence from working and the proxy is
appended to failed; a proxy not in working is a no-op. -/
def ProxyRotator.markFailed (st : ProxyRotator) (p : String) : ProxyRotator :=
  if p ∈ st.working_proxies then
    { st with working_proxies := st.working_proxies.erase p
              failed_proxies := st.failed_proxies ++ [p] }
  else st

/-- The method `ProxyRotator.reset_failed` (client.py lines 110-113). -/
def ProxyRotator.resetFailed (st : ProxyRotator) : ProxyRotator :=
  { st with working_proxies := st.working_proxies ++ st.failed_proxies
            failed_proxies := [] }

/-! ## HTTPClient — `client.py` lines 116-358 -/

/-- ASCII uppercasing of one character, the effect of Python `str.upper`
on the method names occurring here. -/
def asciiUpper (c : Char) : Char :=
  if 97 ≤ c.toNat ∧ c.toNat ≤ 122 then Char.ofNat (c.toNat - 32) else c

/-- Python `method.upper()` for the ASCII method strings compared against
the literal `GET` in `HTTPClient.request`. -/
def upperStr (s : String) : String :=
  String.mk (s.data.map asciiUpper)

/-- Outcome of one call of the underlying transport
(`self.session.request(**request_params)`, client.py line 227), classified
by which `except` arm of `_make_request` it lands in. Following the
`requests` library exception hierarchy: `SSLError` — a hard TLS
verification failure — is a subclass of `requests.exceptions.ConnectionError`
and is marked here by `connectionFailure` with `tlsFailure = true`;
`MissingSchema`/`InvalidURL` — a malformed request — are subclasses of
`requests.exceptions.RequestException` and are marked by `requestFailure`
with `malformedUrl = true`. `otherFailure` is any exception outside the
`requests` hierarchy. -/
inductive TransportResult (α : Type)
  | success (resp : α)
  | timeout
  | connectionFailure (tlsFailure : Bool)
  | requestFailure (malformedUrl : Bool)
  | otherFailure
deriving DecidableEq, Repr

/-- The typed error taxonomy raised by `HTTPClient._make_request`
(`core/exceptions.py`): `TimeoutError`, `ConnectionError`, `NetworkError`.
The message/url/timeout-value payloads are determined by the request
parameters and are elided. -/
inductive NetError
  | timeoutError
  | connectionError
  | networkError
deriving DecidableEq, Repr

/-- Result of one `HTTPClient._make_request` call viewed from the retry
loop in `HTTPClient.request`. -/
inductive MakeRequestOutcome (α : Type)
  | ok (r : α)
  | netErr (e : NetError)
  | uncaughtExc
deriving DecidableEq, Repr

/-- The method `HTTPClient._make_request` (client.py lines 217-266),
projected onto the observables of the retry-loop claims: `Timeout` maps to
`TimeoutError`, `ConnectionError` (including its `SSLError` subclass) maps
to `ConnectionError` after the proxy bookkeeping, any other
`RequestException` (including malformed-URL errors) maps to `NetworkError`,
and an exception outside the `requests` hierarchy escapes the `try`
unconverted. Rate-limiter acquisition (which always returns), response
wrapping, timing and proxy `mark_failed` bookkeeping do not change this
classification and are elided here; the rotator is analysed separately. -/
def HTTPClient.makeRequest {α : Type} : TransportResult α → MakeRequestOutcome α
  | TransportResult.success r => MakeRequestOutcome.ok r
  | TransportResult.timeout => MakeRequestOutcome.netErr NetError.timeoutError
  | TransportResult.connectionFailure _ => MakeRequestOutcome.netErr NetError.connectionError
  | TransportResult.requestFailure _ => MakeRequestOutcome.netErr NetError.networkError
  | TransportResult.otherFailure => MakeRequestOutcome.uncaughtExc

/-- Result of a full `HTTPClient.request` call: a response, a typed error
raised after the retry loop, an uncaught foreign exception, or the final
`NetworkError("unknown reason")` raised when the loop ends with no
recorded exception. -/
inductive RequestResult (α : Type)
  | ok (r : α)
  | err (e : NetError)
  | uncaughtExc
  | unknownFailure
deriving DecidableEq, Repr

/-- The retry loop of `HTTPClient.request` (client.py lines 297-326),
with the transport abstracted as a function from the attempt number to its
outcome. `fuel` is the number of loop iterations left (`max_retries + 1`
at entry), `last` the `last_exception` variable. The second component
counts transport calls. A typed error with iterations left sleeps
`retry_delay * 2 ** attempt` and rotates the proxy — neither affects the
result or the call count — and loops; an exception outside the caught
tuple `(NetworkError, ConnectionError, TimeoutError)` propagates at once. -/
def HTTPClient.requestAttempts {α : Type} (transport : ℕ → TransportResult α)
    (attempt fuel : ℕ) (last : Option NetError) : RequestResult α × ℕ :=
  match fuel with
  | 0 =>
    match last with
    | some e => (RequestResult.err e, 0)
    | none => (RequestResult.unknownFailure, 0)
  | fuel' + 1 =>
    match HTTPClient.makeRequest (transport attempt) with
    | MakeRequestOutcome.ok r => (RequestResult.ok r, 1)
    | MakeRequestOutcome.uncaughtExc => (RequestResult.uncaughtExc, 1)
    | MakeRequestOutcome.netErr e =>
      let rest := HTTPClient.requestAttempts transport (attempt + 1) fuel' (some e)
      (rest.1, rest.2 + 1)

/-- Entry into the retry loop: `for attempt in range(max_retries + 1)`
starting with no recorded exception. -/
def HTTPClient.runRetries {α : Type} (transport : ℕ → TransportResult α)
    (maxRetries : ℕ) : RequestResult α × ℕ :=
  HTTPClient.requestAttempts transport 0 (maxRetries + 1) none

/-- The `HTTPClient` object (client.py lines 122-180) restricted to the
state the caching/retry claims observe: `max_retries` and the owned
`ResponseCache`. Timeout, redirect and TLS configuration only parametrise
the transport; the rate limiter always returns; the user-agent and proxy
rotators only shape `request_params`, which the abstract transport
absorbs. -/
structure HTTPClient where
  max_retries : ℕ
  cache : ResponseCache
deriving DecidableEq, Repr

/-- The network half of `HTTPClient.request` (client.py lines 294-326):
run the retry loop; a successful response of a GET with `use_cache` that
is truthy is stored via `self.cache.set(url, response)` — note: the
source passes only the URL, so `method` and `params` take their cache-side
defaults `GET`/`None` and `ttl` the cache default. Returns the result, the
updated client and the number of transport calls. -/
def HTTPClient.requestNetwork (cl : HTTPClient) (method url : String)
    (useCache : Bool) (transport : ℕ → TransportResult HTTPResponse)
    (now : ℚ) : RequestResult HTTPResponse × HTTPClient × ℕ :=
  match HTTPClient.runRetries transport cl.max_retries with
  | (RequestResult.ok r, n) =>
    if useCache && (upperStr method == "GET") && r.isTruthy then
      (RequestResult.ok r,
       { cl with cache := cl.cache.set url r "GET" none none now }, n)
    else (RequestResult.ok r, cl, n)
  | (other, n) => (other, cl, n)

/-- The method `HTTPClient.request` (client.py lines 268-326). When
`use_cache` holds and the method uppercases to `GET`, the cache is
consulted first via `self.cache.get(url)` — again URL only, `method`
and `params` defaulted — and a truthy cached response returns immediately
with zero transport calls; a falsy or missing one falls through to the
network path. Extra keyword arguments (headers, query `params`, body)
reach only `request_params` and are absorbed by the abstract transport. -/
def HTTPClient.request (cl : HTTPClient) (method url : String)
    (useCache : Bool) (transport : ℕ → TransportResult HTTPResponse)
    (now : ℚ) : RequestResult HTTPResponse × HTTPClient × ℕ :=
  if useCache && (upperStr method == "GET") then
    match cl.cache.get url "GET" none now with
    | (some r, cache1) =>
      if r.isTruthy then (RequestResult.ok r, { cl with cache := cache1 }, 0)
      else HTTPClient.requestNetwork { cl with cache := cache1 } method url useCache transport now
    | (none, cache1) =>
      HTTPClient.requestNetwork { cl with cache := cache1 } method url useCache transport now
  else HTTPClient.requestNetwork cl method url useCache transport now

/-- Concrete 200 response fixture used by the concrete instances below,
as `_make_request` would wrap it (in particular `from_cache` keeps its
dataclass default `False`). -/
def okResponse : HTTPResponse :=
  { url := "http://x/a", status_code := 200, headers := [], content := "",
    text := "ok", encoding := "utf-8", response_time := 0, from_cache := false }

/-- Second concrete 200 response fixture, distinct from `okResponse`. -/
def okResponseB : HTTPResponse :=
  { url := "http://x/a", status_code := 200, headers := [], content := "",
    text := "two", encoding := "utf-8", response_time := 0, from_cache := false }

/-- Concrete cache fixture for the LRU instance: `max_size = 3`, three
live entries whose `last_accessed` stamps order them A (3, most recent),
B (2), C (1, least recent). -/
def demoCache : ResponseCache :=
  { max_size := 3, default_ttl := 60, disk_cache := false,
    memory := [(generateKey "http://x/a" "GET" none, ⟨okResponse, 0, 100, 3⟩),
               (generateKey "http://x/b" "GET" none, ⟨okResponse, 0, 100, 2⟩),
               (generateKey "http://x/c" "GET" none, ⟨okResponse, 0, 100, 1⟩)],
    disk := [] }

/-- Cache fixture with the durable tier enabled: the memory tier holds an
entry for `GET:http://x/a` that expired at t = 1 (its response is
`okResponseB`), while the durable tier holds a live artifact for the same
key (response `okResponse`, valid until t = 100). Reading it at t = 5
purges the expired memory entry and promotes the durable one. -/
def expiredMemCache : ResponseCache :=
  { max_size := 10, default_ttl := 60, disk_cache := true,
    memory := [(generateKey "http://x/a" "GET" none, ⟨okResponseB, 0, 1, 0⟩)],
    disk := [(generateKey "http://x/a" "GET" none, ⟨okResponse, 0, 100, 0⟩)] }

/-- Cache fixture with the durable tier enabled, an empty memory tier and
a durable artifact for `GET:http://x/a` that expired at t = 2. Reading it
at t = 7 must delete the artifact and miss. -/
def expiredDiskCache : ResponseCache :=
  { max_size := 10, default_ttl := 60, disk_cache := true,
    memory := [],
    disk := [(generateKey "http://x/a" "GET" none, ⟨okResponse, 0, 2, 0⟩)] }

/-- One mutating call on a `ProxyRotator`. -/
inductive RotOp
  | getNext
  | markFailed (p : String)
  | resetFailed
deriving DecidableEq, Repr

/-- State reached after one `RotOp`. -/
def ProxyRotator.applyOp (st : ProxyRotator) : RotOp → ProxyRotator
  | RotOp.getNext => (st.getNext).2
  | RotOp.markFailed p => st.markFailed p
  | RotOp.resetFailed => st.resetFailed

/-- State reached after a sequence of `RotOp`s. -/
def ProxyRotator.runOps (st : ProxyRotator) : List RotOp → ProxyRotator
  | [] => st
  | op :: ops => (st.applyOp op).runOps ops

/-! ## Shared lemmas about the ordered-dict primitives -/

theorem lookupDict_eraseDict_self {α : Type} (m : List (String × α)) (k : String) :
    lookupDict (eraseDict m k) k = none := by
  induction m with
  | nil => rfl
  | cons p rest ih =>
    by_cases h : p.1 = k
    · simpa [eraseDict, h] using ih
    · simpa [eraseDict, lookupDict, h] using ih

theorem lookupDict_updateDict_self {α : Type} (m : List (String × α)) (k : String)
    (v : α) (e : α) (h : lookupDict m k = some e) :
    lookupDict (updateDict m k v) k = some v := by
  induction m with
  | nil => simp [lookupDict] at h
  | cons p rest ih =>
    obtain ⟨pk, pv⟩ := p
    by_cases hk : pk = k
    · simp [updateDict, lookupDict, hk]
    · simp only [lookupDict, hk, if_false] at h
      simpa [updateDict, lookupDict, hk] using ih h

theorem lookupDict_append_self {α : Type} (m : List (String × α)) (k : String)
    (v : α) (h : lookupDict m k = none) :
    lookupDict (m ++ [(k, v)]) k = some v := by
  induction m with
  | nil => simp [lookupDict]
  | cons p rest ih =>
    by_cases hk : p.1 = k
    · simp [lookupDict, hk] at h
    · simp only [lookupDict, hk, if_neg] at h
      simpa [lookupDict, hk] using ih h

theorem lookupDict_insertDict_self {α : Type} (m : List (String × α)) (k : String)
    (v : α) : lookupDict (insertDict m k v) k = some v := by
  unfold insertDict
  rcases h : lookupDict m k with _ | e
  · simpa [h] using lookupDict_append_self m k v h
  · simpa [h] using lookupDict_updateDict_self m k v e h

theorem lookupDict_eq_none_iff {α : Type} (m : List (String × α)) (k : String) :
    lookupDict m k = none ↔ k ∉ m.map Prod.fst := by
  induction m with
  | nil => simp [lookupDict]
  | cons p rest ih =>
    by_cases hk : p.1 = k
    · simp [lookupDict, hk]
    · simp [lookupDict, hk, ih, Ne.symm hk]

theorem keys_updateDict {α : Type} (m : List (String × α)) (k : String) (v : α) :
    (updateDict m k v).map Prod.fst = m.map Prod.fst := by
  induction m with
  | nil => rfl
  | cons p rest ih =>
    by_cases hk : p.1 = k
    · simp [updateDict, hk, ih]
    · simp [updateDict, hk, ih]

theorem keys_insertDict_nodup {α : Type} (m : List (String × α)) (k : String)
    (v : α) (h : (m.map Prod.fst).Nodup) :
    ((insertDict m k v).map Prod.fst).Nodup := by
  unfold insertDict
  rcases hl : lookupDict m k with _ | e
  · have hk : k ∉ m.map Prod.fst := (lookupDict_eq_none_iff m k).mp hl
    have hmap : ((m ++ [(k, v)]).map Prod.fst) = m.map Prod.fst ++ [k] := by simp
    simp only [Option.isSome_none, Bool.false_eq_true, if_false, hmap]
    rw [List.nodup_append]
    refine ⟨h, List.nodup_singleton k, ?_⟩
    intro a ha hb
    simp only [List.mem_singleton] at hb
    subst hb
    exact hk ha
  · simp only [Option.isSome_some, if_true, keys_updateDict]
    exact h

/-! ## Claim C10 — `ProxyRotator.get_next` can raise an uncaught `IndexError` -/

/-- C10: from a reachable `ProxyRotator` state with a non-empty working
list, `get_next()` raises an uncaught `IndexError`: starting from two
proxies, one `get_next` advances the cursor to 1, `mark_failed` of the
second proxy shrinks the working list to length 1 without clamping the
cursor, and the next `get_next` subscripts index 1 of a length-1 list. -/
theorem proxyRotator_getNext_indexError :
    (let st0 := ProxyRotator.init ["http://p1:8080", "http://p2:8080"]
     let st1 := (ProxyRotator.getNext st0).2
     let st2 := ProxyRotator.markFailed st1 "http://p2:8080"
     (ProxyRotator.getNext st2).1 = GetNextOutcome.indexError ∧
       st2.working_proxies.isEmpty = false ∧
       st2.current_index = st2.working_proxies.length) := by
  decide

/-! ## Claim C9 — `RateLimiter` construction performs no validation -/

/-- C9 counterexample: constructing a `RateLimiter` with
`requests_per_second = 0` (≤ 0) is not rejected: `__init__` returns a
normally constructed limiter whose bucket is permanently empty. -/
theorem rateLimiter_init_zero_accepted_cx :
    RateLimiter.init 0 60 0 =
      Except.ok
        { requests_per_second := 0, window_size := 60, tokens := 0,
          max_tokens := 0, last_update := 0, request_times := [] } := rfl

/-- C9 amended: construction with any `requests_per_second ≤ 0` succeeds
without a configuration error; `__init__` contains no validation and just
stores the value, setting `tokens = max_tokens = requests_per_second`. -/
theorem rateLimiter_init_no_validation (rps ws now : ℚ) (h : rps ≤ 0) :
    RateLimiter.init rps ws now =
      Except.ok
        { requests_per_second := rps, window_size := ws, tokens := rps,
          max_tokens := rps, last_update := now, request_times := [] } := rfl

/-- Witness for the amended C9 at `requests_per_second = -1`. -/
theorem rateLimiter_init_no_validation_witness :
    (-1 : ℚ) ≤ 0 ∧
      RateLimiter.init (-1) 60 0 =
        Except.ok
          { requests_per_second := -1, window_size := 60, tokens := -1,
            max_tokens := -1, last_update := 0, request_times := [] } :=
  ⟨by norm_num, rateLimiter_init_no_validation (-1) 60 0 (by norm_num)⟩

/-! ## Claim C2 — token-bucket bounds of `RateLimiter.acquire` -/

/-- C2 counterexample: the 0 ≤ tokens lower bound fails even for a single
sequential `acquire`. From the freshly constructed limiter with
`requests_per_second = 1` (so `max_tokens = 1`), `acquire(5)` at `t1 = 0`
computes a 4-second wait, sleeps exactly that long (`t2 = 0 + waitTime`),
refills to the 1-token clamp and then deducts 5 unconditionally, leaving
`tokens = -4 < 0`. -/
theorem rateLimiter_tokens_negative_cx :
    (let s0 : RateLimiter :=
       { requests_per_second := 1, window_size := 60, tokens := 1,
         max_tokens := 1, last_update := 0, request_times := [] }
     RateLimiter.init 1 60 0 = Except.ok s0 ∧
       (4 : ℚ) = 0 + RateLimiter.waitTime s0 5 0 ∧
       (RateLimiter.acquire s0 5 0 4).2 = true ∧
       (RateLimiter.acquire s0 5 0 4).1.tokens = -4 ∧
       (RateLimiter.acquire s0 5 0 4).1.tokens < 0) := by
  refine ⟨rfl, ?_, ?_, ?_, ?_⟩ <;>
    norm_num [RateLimiter.acquire, RateLimiter.updateTokens, RateLimiter.waitTime]

theorem updateTokens_tokens_eq (s : RateLimiter) (now : ℚ) :
    (RateLimiter.updateTokens s now).tokens =
      min s.max_tokens (s.tokens + (now - s.last_update) * s.requests_per_second) := rfl

theorem updateTokens_max (s : RateLimiter) (now : ℚ) :
    (RateLimiter.updateTokens s now).max_tokens = s.max_tokens := rfl

theorem updateTokens_last (s : RateLimiter) (now : ℚ) :
    (RateLimiter.updateTokens s now).last_update = now := rfl

theorem updateTokens_rps (s : RateLimiter) (now : ℚ) :
    (RateLimiter.updateTokens s now).requests_per_second = s.requests_per_second := rfl

/-- C2 amended: for one `acquire` step (and hence, inductively, for any
sequence) with a positive rate, a clock that does not run backwards and a
bucket currently within its cap: the token count never exceeds
`max_tokens` (which `acquire` leaves unchanged), an acquire issued when
`tokens ≥ cost` returns without waiting, and the 0 ≤ tokens lower bound
holds only under the extra assumptions that the bucket starts nonnegative,
`cost ≤ max_tokens`, and the sleep lasts at least the computed wait — the
counterexample above shows the bound fails for `cost > max_tokens`, and
the unconditional post-sleep deduction likewise lets concurrently woken
callers overdraw the bucket. -/
theorem rateLimiter_acquire_amended (s : RateLimiter) (cost : ℕ) (t1 t2 : ℚ)
    (hrps : 0 < s.requests_per_second)
    (hmax : s.tokens ≤ s.max_tokens)
    (ht1 : s.last_update ≤ t1) :
    ((RateLimiter.acquire s cost t1 t2).1.tokens ≤ s.max_tokens ∧
      (RateLimiter.acquire s cost t1 t2).1.max_tokens = s.max_tokens) ∧
    ((cost : ℚ) ≤ s.tokens → (RateLimiter.acquire s cost t1 t2).2 = false) ∧
    (0 ≤ s.tokens → (cost : ℚ) ≤ s.max_tokens →
      t1 + RateLimiter.waitTime s cost t1 ≤ t2 →
      0 ≤ (RateLimiter.acquire s cost t1 t2).1.tokens) := by
  have hcost : (0 : ℚ) ≤ (cost : ℚ) := Nat.cast_nonneg cost
  have hrefill : s.tokens ≤ (RateLimiter.updateTokens s t1).tokens := by
    rw [updateTokens_tokens_eq]
    refine le_min hmax ?_
    nlinarith
  have hub1 : (RateLimiter.updateTokens s t1).tokens ≤ s.max_tokens := by
    rw [updateTokens_tokens_eq]
    exact min_le_left _ _
  by_cases hc : (cost : ℚ) ≤ (RateLimiter.updateTokens s t1).tokens
  · refine ⟨⟨?_, ?_⟩, fun _ => ?_, fun _ _ _ => ?_⟩ <;>
      simp only [RateLimiter.acquire, hc, if_true]
    · linarith
    · rfl
    · linarith
  · have hub2 : (RateLimiter.updateTokens (RateLimiter.updateTokens s t1) t2).tokens ≤
        s.max_tokens := by
      rw [updateTokens_tokens_eq, updateTokens_max]
      exact min_le_left _ _
    refine ⟨⟨?_, ?_⟩, fun hle => ?_, fun h0 hcm ht2 => ?_⟩
    · simp only [RateLimiter.acquire, hc, if_false]
      linarith
    · simp only [RateLimiter.acquire, hc, if_false]
      rfl
    · exact absurd (le_trans hle hrefill) hc
    · simp only [RateLimiter.acquire, hc, if_false]
      have hge : (cost : ℚ) ≤
          (RateLimiter.updateTokens (RateLimiter.updateTokens s t1) t2).tokens := by
        rw [updateTokens_tokens_eq, updateTokens_max, updateTokens_last, updateTokens_rps]
        refine le_min hcm ?_
        have h1 : RateLimiter.waitTime s cost t1 ≤ t2 - t1 := by linarith
        have h2 : RateLimiter.waitTime s cost t1 * s.requests_per_second =
            (cost : ℚ) - (RateLimiter.updateTokens s t1).tokens := by
          rw [RateLimiter.waitTime]
          field_simp
        nlinarith
      linarith

/-- Witness for the amended C2 at a fresh limiter with rate 2 and a unit
acquire at time 0. -/
theorem rateLimiter_acquire_amended_witness :
    (0 : ℚ) < 2 ∧
      (let s : RateLimiter :=
        { requests_per_second := 2, window_size := 60, tokens := 2,
          max_tokens := 2, last_update := 0, request_times := [] }
       ((RateLimiter.acquire s 1 0 0).1.tokens ≤ s.max_tokens ∧
         (RateLimiter.acquire s 1 0 0).1.max_tokens = s.max_tokens) ∧
       ((1 : ℚ) ≤ s.tokens → (RateLimiter.acquire s 1 0 0).2 = false) ∧
       (0 ≤ s.tokens → (1 : ℚ) ≤ s.max_tokens →
         0 + RateLimiter.waitTime s 1 0 ≤ 0 →
         0 ≤ (RateLimiter.acquire s 1 0 0).1.tokens)) := by
  constructor
  · norm_num
  · exact rateLimiter_acquire_amended
      { requests_per_second := 2, window_size := 60, tokens := 2,
        max_tokens := 2, last_update := 0, request_times := [] } 1 0 0
      (by norm_num) (by norm_num) (by norm_num)

/-! ## Claim C3 — retry counts of the `HTTPClient.request` loop -/

theorem requestAttempts_netErr {α : Type} (f : ℕ → TransportResult α)
    (a fuel : ℕ) (last : Option NetError) (e : NetError)
    (h : HTTPClient.makeRequest (f a) = MakeRequestOutcome.netErr e) :
    HTTPClient.requestAttempts f a (fuel + 1) last =
      ((HTTPClient.requestAttempts f (a + 1) fuel (some e)).1,
       (HTTPClient.requestAttempts f (a + 1) fuel (some e)).2 + 1) := by
  rw [HTTPClient.requestAttempts, h]

theorem requestAttempts_success {α : Type} (f : ℕ → TransportResult α)
    (a fuel : ℕ) (last : Option NetError) (r : α)
    (h : f a = TransportResult.success r) :
    HTTPClient.requestAttempts f a (fuel + 1) last = (RequestResult.ok r, 1) := by
  rw [HTTPClient.requestAttempts, h]
  rfl

theorem requestAttempts_exhausted {α : Type} (f : ℕ → TransportResult α)
    (a : ℕ) (e : NetError) :
    HTTPClient.requestAttempts f a 0 (some e) = (RequestResult.err e, 0) := rfl

/-- C3: for a transport whose first two calls raise a retryable typed
failure and whose third call succeeds, the retry loop with
`max_retries = 3` returns the successful response after exactly 3
transport calls, and with `max_retries = 1` raises the typed error of the
last (second) attempt after exactly 2 transport calls. -/
theorem retry_fail_twice_succeed_third (f : ℕ → TransportResult HTTPResponse)
    (r : HTTPResponse) (e0 e1 : NetError)
    (h0 : HTTPClient.makeRequest (f 0) = MakeRequestOutcome.netErr e0)
    (h1 : HTTPClient.makeRequest (f 1) = MakeRequestOutcome.netErr e1)
    (h2 : f 2 = TransportResult.success r) :
    HTTPClient.runRetries f 3 = (RequestResult.ok r, 3) ∧
      HTTPClient.runRetries f 1 = (RequestResult.err e1, 2) := by
  constructor
  · show HTTPClient.requestAttempts f 0 (3 + 1) none = (RequestResult.ok r, 3)
    rw [requestAttempts_netErr f 0 3 none e0 h0,
        show (3 : ℕ) = 2 + 1 from rfl,
        requestAttempts_netErr f 1 2 (some e0) e1 h1,
        show (2 : ℕ) = 1 + 1 from rfl,
        requestAttempts_success f 2 1 (some e1) r h2]
  · show HTTPClient.requestAttempts f 0 (1 + 1) none = (RequestResult.err e1, 2)
    rw [requestAttempts_netErr f 0 1 none e0 h0,
        show (1 : ℕ) = 0 + 1 from rfl,
        requestAttempts_netErr f 1 0 (some e0) e1 h1,
        requestAttempts_exhausted f 2 e1]

/-- Witness for C3 with a transport that raises a connection failure on
attempts 0 and 1 and returns the 200 fixture on attempt 2. -/
theorem retry_fail_twice_succeed_third_witness :
    HTTPClient.makeRequest
        ((fun n => if n < 2 then TransportResult.connectionFailure false
          else TransportResult.success okResponse) 0) =
      MakeRequestOutcome.netErr NetError.connectionError ∧
    (HTTPClient.runRetries
        (fun n => if n < 2 then TransportResult.connectionFailure false
          else TransportResult.success okResponse) 3 =
      (RequestResult.ok okResponse, 3) ∧
     HTTPClient.runRetries
        (fun n => if n < 2 then TransportResult.connectionFailure false
          else TransportResult.success okResponse) 1 =
      (RequestResult.err NetError.connectionError, 2)) :=
  ⟨rfl,
   retry_fail_twice_succeed_third
     (fun n => if n < 2 then TransportResult.connectionFailure false
       else TransportResult.success okResponse)
     okResponse NetError.connectionError NetError.connectionError rfl rfl rfl⟩

/-! ## Claim C6 — retryable versus non-retryable failure classification -/

/-- C6 counterexample: a hard TLS verification failure (an `SSLError`,
which the transport surfaces as a `requests` `ConnectionError` subclass)
and a malformed request (`MissingSchema`, a `RequestException` subclass)
do NOT propagate on first occurrence: with `max_retries = 1` each consumes
the retry attempt, producing exactly 2 transport calls and the typed
retryable error — where the claim demands propagation after 1 call. -/
theorem tls_and_malformed_consume_retries_cx :
    HTTPClient.runRetries (fun _ => (TransportResult.connectionFailure true :
        TransportResult HTTPResponse)) 1 =
      (RequestResult.err NetError.connectionError, 2) ∧
    HTTPClient.runRetries (fun _ => (TransportResult.requestFailure true :
        TransportResult HTTPResponse)) 1 =
      (RequestResult.err NetError.networkError, 2) := by
  decide

/-- C6 amended: the classification in `_make_request` maps Timeout,
Connection and generic request failures to the retryable typed errors —
and this includes hard TLS verification failures (surfaced inside the
`ConnectionError` arm) and malformed requests (surfaced inside the
`RequestException` arm), which therefore consume retry attempts instead of
propagating at once. Only an exception outside the `requests` hierarchy
escapes the retry loop on its first occurrence, after exactly one
transport call, for every `max_retries`. -/
theorem failure_classification_amended (f : ℕ → TransportResult HTTPResponse)
    (mr : ℕ) (tls malformed : Bool)
    (hother : f 0 = TransportResult.otherFailure) :
    HTTPClient.makeRequest (TransportResult.timeout : TransportResult HTTPResponse) =
      MakeRequestOutcome.netErr NetError.timeoutError ∧
    HTTPClient.makeRequest (TransportResult.connectionFailure tls :
        TransportResult HTTPResponse) =
      MakeRequestOutcome.netErr NetError.connectionError ∧
    HTTPClient.makeRequest (TransportResult.requestFailure malformed :
        TransportResult HTTPResponse) =
      MakeRequestOutcome.netErr NetError.networkError ∧
    HTTPClient.runRetries f mr = (RequestResult.uncaughtExc, 1) := by
  refine ⟨rfl, rfl, rfl, ?_⟩
  show HTTPClient.requestAttempts f 0 (mr + 1) none = (RequestResult.uncaughtExc, 1)
  rw [HTTPClient.requestAttempts, hother]
  rfl

/-- Witness for the amended C6 with a transport that raises a foreign
(non-`requests`) exception on its first call and `max_retries = 3`. -/
theorem failure_classification_amended_witness :
    ((fun _ => TransportResult.otherFailure : ℕ → TransportResult HTTPResponse) 0 =
        TransportResult.otherFailure) ∧
    (HTTPClient.makeRequest (TransportResult.timeout : TransportResult HTTPResponse) =
        MakeRequestOutcome.netErr NetError.timeoutError ∧
      HTTPClient.makeRequest (TransportResult.connectionFailure true :
          TransportResult HTTPResponse) =
        MakeRequestOutcome.netErr NetError.connectionError ∧
      HTTPClient.makeRequest (TransportResult.requestFailure true :
          TransportResult HTTPResponse) =
        MakeRequestOutcome.netErr NetError.networkError ∧
      HTTPClient.runRetries (fun _ => TransportResult.otherFailure :
          ℕ → TransportResult HTTPResponse) 3 = (RequestResult.uncaughtExc, 1)) :=
  ⟨rfl, failure_classification_amended (fun _ => TransportResult.otherFailure) 3 true true rfl⟩

/-! ## Claim C7 — `ProxyRotator` mark-failed / reset contract -/

theorem getNext_proxy_mem (st : ProxyRotator) (p : String)
    (h : (ProxyRotator.getNext st).1 = GetNextOutcome.proxy p) :
    p ∈ st.working_proxies := by
  by_cases he : st.working_proxies.isEmpty
  · simp [ProxyRotator.getNext, he] at h
  · by_cases hlt : st.current_index < st.working_proxies.length
    · simp only [ProxyRotator.getNext, he, Bool.false_eq_true, if_false, hlt, dif_pos,
        GetNextOutcome.proxy.injEq] at h
      rw [← h]
      exact List.get_mem _ _ _
    · simp [ProxyRotator.getNext, he, hlt] at h

theorem getNext_working_unchanged (st : ProxyRotator) :
    ((ProxyRotator.getNext st).2).working_proxies = st.working_proxies := by
  by_cases he : st.working_proxies.isEmpty
  · simp [ProxyRotator.getNext, he]
  · by_cases hlt : st.current_index < st.working_proxies.length
    · simp [ProxyRotator.getNext, he, hlt]
    · simp [ProxyRotator.getNext, he, hlt]

theorem applyOp_not_mem (st : ProxyRotator) (p : String) (op : RotOp)
    (hop : op ≠ RotOp.resetFailed) (h : p ∉ st.working_proxies) :
    p ∉ (ProxyRotator.applyOp st op).working_proxies := by
  cases op with
  | getNext =>
    simpa [ProxyRotator.applyOp, getNext_working_unchanged] using h
  | markFailed q =>
    by_cases hq : q ∈ st.working_proxies
    · intro hmem
      apply h
      simp only [ProxyRotator.applyOp, ProxyRotator.markFailed, hq, if_true] at hmem
      exact List.mem_of_mem_erase hmem
    · simpa [ProxyRotator.applyOp, ProxyRotator.markFailed, hq] using h
  | resetFailed => exact absurd rfl hop

theorem runOps_not_mem (st : ProxyRotator) (p : String) (ops : List RotOp)
    (hno : RotOp.resetFailed ∉ ops) (h : p ∉ st.working_proxies) :
    p ∉ (ProxyRotator.runOps st ops).working_proxies := by
  induction ops generalizing st with
  | nil => simpa [ProxyRotator.runOps] using h
  | cons op rest ih =>
    have hop : op ≠ RotOp.resetFailed := by
      intro he
      exact hno (by simp [he])
    have hrest : RotOp.resetFailed ∉ rest := fun hr => hno (List.mem_cons_of_mem _ hr)
    exact ih _ hrest (applyOp_not_mem st p op hop h)

theorem markFailed_not_mem (st : ProxyRotator) (p : String)
    (hnd : st.working_proxies.Nodup) :
    p ∉ (ProxyRotator.markFailed st p).working_proxies := by
  by_cases hp : p ∈ st.working_proxies
  · simp only [ProxyRotator.markFailed, hp, if_true]
    exact hnd.not_mem_erase
  · simp only [ProxyRotator.markFailed, hp, if_false]
    exact not_false

/-- C7: for a rotator whose working list holds no duplicates (the spec
models the endpoints as a set), after `mark_failed(p)` no later
`get_next()` along any sequence of `get_next`/`mark_failed` calls that
contains no `reset_failed` can return `p`; a second `mark_failed(p)` is a
no-op on the whole state; and `reset_failed()` moves all failed endpoints
back into the working list and empties the failed list. -/
theorem proxy_markFailed_contract (st : ProxyRotator) (p : String)
    (pre : List RotOp)
    (hnd : st.working_proxies.Nodup)
    (hnoreset : RotOp.resetFailed ∉ pre) :
    (p ∉ (ProxyRotator.runOps (ProxyRotator.markFailed st p) pre).working_proxies ∧
      (ProxyRotator.getNext (ProxyRotator.runOps (ProxyRotator.markFailed st p) pre)).1 ≠
        GetNextOutcome.proxy p) ∧
    ProxyRotator.markFailed (ProxyRotator.markFailed st p) p =
      ProxyRotator.markFailed st p ∧
    (ProxyRotator.resetFailed st).working_proxies =
      st.working_proxies ++ st.failed_proxies ∧
    (ProxyRotator.resetFailed st).failed_proxies = [] := by
  have h1 : p ∉ (ProxyRotator.markFailed st p).working_proxies :=
    markFailed_not_mem st p hnd
  have h2 := runOps_not_mem _ p pre hnoreset h1
  refine ⟨⟨h2, fun hc => h2 (getNext_proxy_mem _ p hc)⟩, ?_, rfl, rfl⟩
  set X := ProxyRotator.markFailed st p with hX
  rw [ProxyRotator.markFailed, if_neg h1]

/-- Witness for C7: two distinct proxies, the second marked failed, then a
`get_next` and a `mark_failed` of the first before probing. -/
theorem proxy_markFailed_contract_witness :
    (ProxyRotator.init ["http://p1:8080", "http://p2:8080"]).working_proxies.Nodup ∧
    RotOp.resetFailed ∉ [RotOp.getNext, RotOp.markFailed "http://p1:8080"] ∧
    ((let st := ProxyRotator.init ["http://p1:8080", "http://p2:8080"]
      let p := "http://p2:8080"
      let pre := [RotOp.getNext, RotOp.markFailed "http://p1:8080"]
      (p ∉ (ProxyRotator.runOps (ProxyRotator.markFailed st p) pre).working_proxies ∧
        (ProxyRotator.getNext (ProxyRotator.runOps (ProxyRotator.markFailed st p) pre)).1 ≠
          GetNextOutcome.proxy p) ∧
      ProxyRotator.markFailed (ProxyRotator.markFailed st p) p =
        ProxyRotator.markFailed st p ∧
      (ProxyRotator.resetFailed st).working_proxies =
        st.working_proxies ++ st.failed_proxies ∧
      (ProxyRotator.resetFailed st).failed_proxies = [])) :=
  ⟨by decide, by decide,
   proxy_markFailed_contract (ProxyRotator.init ["http://p1:8080", "http://p2:8080"])
     "http://p2:8080" [RotOp.getNext, RotOp.markFailed "http://p1:8080"]
     (by decide) (by decide)⟩

/-! ## Claim C1 — cache provenance flag on a repeated GET -/

theorem upperStr_GET : upperStr "GET" = "GET" := by decide

/-- C1: end-to-end double GET through the executor with caching. The
first call is served by the network (1 transport call) and returns a
response with `from_cache = false`, and the immediate second call is
served by the cache (0 transport calls) — but the response it returns
STILL has `from_cache = false`: the source never sets the flag anywhere,
so the claimed `from_cache = true` on the hit never happens. The stored
and returned object is `okResponse` itself, whose `from_cache` field is
the dataclass default `false`. -/
theorem from_cache_flag_never_set :
    (let cl : HTTPClient := { max_retries := 3, cache := ResponseCache.init 1000 60 false }
     let tr : ℕ → TransportResult HTTPResponse := fun _ => TransportResult.success okResponse
     let first := HTTPClient.request cl "GET" "http://x/a" true tr 0
     let second := HTTPClient.request first.2.1 "GET" "http://x/a" true tr 1
     (first.1 = RequestResult.ok okResponse ∧ first.2.2 = 1 ∧
        okResponse.from_cache = false) ∧
     (second.2.2 = 0 ∧ second.1 = RequestResult.ok okResponse)) := by
  norm_num [HTTPClient.request, HTTPClient.requestNetwork, HTTPClient.runRetries,
    HTTPClient.requestAttempts, HTTPClient.makeRequest, upperStr_GET,
    ResponseCache.get, ResponseCache.set, ResponseCache.getDiskPhase,
    ResponseCache.loadFromDisk, ResponseCache.cleanupMemoryCache, ResponseCache.init,
    lookupDict, insertDict, updateDict, eraseDict, generateKey, generateKeyData,
    isExpired, HTTPResponse.isTruthy, okResponse]

/-! ## Claim C8 — cache keying of requests through the executor -/

/-- C8 counterexample: two executor GETs of the same URL with different
query parameters do NOT occupy distinct cache entries. `HTTPClient.request`
invokes the cache as `self.cache.get(url)` / `self.cache.set(url, response)`
with `method`/`params` left at their defaults, so the parameter dicts
(modelled by the two different transports they would select) never reach
`_generate_key`: after both calls the cache holds a single entry, and the
second request is answered from the first request's entry (0 transport
calls) even though `_generate_key` itself would separate the two parameter
dicts had they been passed. -/
theorem cache_key_ignores_params_cx :
    (let cl : HTTPClient := { max_retries := 3, cache := ResponseCache.init 1000 3600 false }
     let first := HTTPClient.request cl "GET" "http://x/a" true
       (fun _ => TransportResult.success okResponse) 0
     let second := HTTPClient.request first.2.1 "GET" "http://x/a" true
       (fun _ => TransportResult.success okResponseB) 1
     first.2.1.cache.memory.length = 1 ∧
       second.1 = RequestResult.ok okResponse ∧
       second.2.2 = 0 ∧
       second.2.1.cache.memory.length = 1 ∧
       decide (okResponse = okResponseB) = false ∧
       decide (generateKey "http://x/a" "GET" (some [("q", "1")]) =
         generateKey "http://x/a" "GET" (some [("q", "2")])) = false) := by
  refine ⟨?_, ?_, ?_, ?_, by decide, by decide⟩ <;>
    norm_num [HTTPClient.request, HTTPClient.requestNetwork, HTTPClient.runRetries,
      HTTPClient.requestAttempts, HTTPClient.makeRequest, upperStr_GET,
      ResponseCache.get, ResponseCache.set, ResponseCache.getDiskPhase,
      ResponseCache.loadFromDisk, ResponseCache.cleanupMemoryCache, ResponseCache.init,
      lookupDict, insertDict, updateDict, eraseDict, generateKey, generateKeyData,
      isExpired, HTTPResponse.isTruthy, okResponse, okResponseB]

/-- C8 amended: `_generate_key` is a deterministic function of method,
URL and the sorted parameter pairs, but the executor calls the cache with
the URL alone, so the cache key of every executor GET is the digest of
`GET:url` — independent of the request parameters. Consequently a second
GET of the same URL, whatever its parameters select as transport
behaviour, is served from the first GET's single cache entry with zero
transport calls. -/
theorem client_cache_shared_entry_amended (url : String) (r : HTTPResponse)
    (t2 : ℕ → TransportResult HTTPResponse) (hok : r.isTruthy = true) :
    (let cl : HTTPClient := { max_retries := 3, cache := ResponseCache.init 1000 3600 false }
     let first := HTTPClient.request cl "GET" url true
       (fun _ => TransportResult.success r) 0
     let second := HTTPClient.request first.2.1 "GET" url true t2 1
     first.2.2 = 1 ∧
       first.2.1.cache.memory =
         [(generateKey url "GET" none, ⟨r, 0, 0 + 3600, 0⟩)] ∧
       second.1 = RequestResult.ok r ∧ second.2.2 = 0) := by
  norm_num [HTTPClient.request, HTTPClient.requestNetwork, HTTPClient.runRetries,
    HTTPClient.requestAttempts, HTTPClient.makeRequest, upperStr_GET,
    ResponseCache.get, ResponseCache.set, ResponseCache.getDiskPhase,
    ResponseCache.loadFromDisk, ResponseCache.cleanupMemoryCache, ResponseCache.init,
    lookupDict, insertDict, updateDict, eraseDict, generateKey, generateKeyData,
    isExpired, hok]

/-- Witness for the amended C8 at the concrete URL and fixtures, with a
second transport that would return a different response. -/
theorem client_cache_shared_entry_amended_witness :
    okResponse.isTruthy = true ∧
    (let cl : HTTPClient := { max_retries := 3, cache := ResponseCache.init 1000 3600 false }
     let first := HTTPClient.request cl "GET" "http://x/a" true
       (fun _ => TransportResult.success okResponse) 0
     let second := HTTPClient.request first.2.1 "GET" "http://x/a" true
       (fun _ => TransportResult.success okResponseB) 1
     first.2.2 = 1 ∧
       first.2.1.cache.memory =
         [(generateKey "http://x/a" "GET" none, ⟨okResponse, 0, 0 + 3600, 0⟩)] ∧
       second.1 = RequestResult.ok okResponse ∧ second.2.2 = 0) :=
  ⟨by decide,
   client_cache_shared_entry_amended "http://x/a" okResponse
     (fun _ => TransportResult.success okResponseB) (by decide)⟩

/-! ## Claim C4 — TTL expiry is honoured by `ResponseCache.get` -/

theorem loadFromDisk_memory_ttl (st : ResponseCache) (key : String) (now : ℚ) :
    (ResponseCache.loadFromDisk st key now).2.memory = st.memory ∧
    (ResponseCache.loadFromDisk st key now).2.default_ttl = st.default_ttl := by
  unfold ResponseCache.loadFromDisk
  by_cases hd : st.disk_cache = true
  · rcases hl : lookupDict st.disk key with _ | e
    · simp [hd, hl]
    · by_cases he : isExpired now e = true
      · simp [hd, hl, he]
      · simp [hd, hl, he]
  · simp [hd]

theorem loadFromDisk_some (st : ResponseCache) (key : String) (now : ℚ)
    (r : HTTPResponse) (st2 : ResponseCache)
    (h : ResponseCache.loadFromDisk st key now = (some r, st2)) :
    st.disk_cache = true ∧
      ∃ e, lookupDict st.disk key = some e ∧ isExpired now e = false ∧
        r = e.response ∧ st2 = st := by
  unfold ResponseCache.loadFromDisk at h
  by_cases hd : st.disk_cache = true
  · rcases hl : lookupDict st.disk key with _ | e
    · simp [hd, hl] at h
    · by_cases he : isExpired now e = true
      · simp [hd, hl, he] at h
      · simp only [hd, if_true, hl, he, Bool.false_eq_true, if_false,
          Prod.mk.injEq, Option.some.injEq] at h
        exact ⟨hd, e, rfl, by simpa using he, h.1.symm, h.2.symm⟩
  · simp [hd] at h

theorem loadFromDisk_expired (st : ResponseCache) (key : String) (now : ℚ)
    (e : CacheEntry) (hd : st.disk_cache = true)
    (hl : lookupDict st.disk key = some e) (he : isExpired now e = true) :
    ResponseCache.loadFromDisk st key now =
      (none, { st with disk := eraseDict st.disk key }) := by
  simp [ResponseCache.loadFromDisk, hd, hl, he]

/-- C4: `ResponseCache.get` never returns an expired entry. Whatever the
state: (i) a returned response always comes from an entry — memory or
durable — that is unexpired at `now`; (ii) when the memory tier holds an
expired entry for the key it is purged: after the call the key is either
gone from the memory tier or freshly promoted from the durable tier with
`cached_at = now` and a full new TTL; (iii) an expired durable entry is
never returned and its artifact is deleted on that touch. -/
theorem cache_never_returns_expired (st : ResponseCache) (url method : String)
    (params : Option (List (String × String))) (now : ℚ) :
    (∀ r, (st.get url method params now).1 = some r →
       (∃ e, lookupDict st.memory (generateKey url method params) = some e ∧
          isExpired now e = false ∧ r = e.response) ∨
       (st.disk_cache = true ∧
         ∃ e, lookupDict st.disk (generateKey url method params) = some e ∧
           isExpired now e = false ∧ r = e.response)) ∧
    (∀ e, lookupDict st.memory (generateKey url method params) = some e →
       isExpired now e = true →
       lookupDict ((st.get url method params now).2).memory
           (generateKey url method params) = none ∨
       (∃ e2, lookupDict ((st.get url method params now).2).memory
           (generateKey url method params) = some e2 ∧
          e2.cached_at = now ∧ e2.expires_at = now + st.default_ttl)) ∧
    (∀ e, lookupDict st.memory (generateKey url method params) = none →
       lookupDict st.disk (generateKey url method params) = some e →
       isExpired now e = true → st.disk_cache = true →
       (st.get url method params now).1 = none ∧
       lookupDict ((st.get url method params now).2).disk
         (generateKey url method params) = none) := by
  set k := generateKey url method params with hk
  refine ⟨?_, ?_, ?_⟩
  · intro r hr
    rcases hm : lookupDict st.memory k with _ | e
    · simp only [ResponseCache.get, ← hk, hm] at hr
      unfold ResponseCache.getDiskPhase at hr
      rcases hld : st.loadFromDisk k now with ⟨_ | r0, st2⟩
      · simp [hld] at hr
      · rw [hld] at hr
        by_cases ht : r0.isTruthy = true
        · simp only [ht, if_true, Option.some.injEq] at hr
          obtain ⟨hd, e, hl, he, hre, _⟩ := loadFromDisk_some st k now r0 st2 hld
          exact Or.inr ⟨hd, e, hl, he, by rw [← hr, hre]⟩
        · simp [ht] at hr
    · simp only [ResponseCache.get, ← hk, hm] at hr
      by_cases he : isExpired now e = true
      · rw [if_pos he] at hr
        unfold ResponseCache.getDiskPhase at hr
        rcases hld : ResponseCache.loadFromDisk
            { st with memory := eraseDict st.memory k } k now with ⟨_ | r0, st2⟩
        · simp [hld] at hr
        · rw [hld] at hr
          by_cases ht : r0.isTruthy = true
          · simp only [ht, if_true, Option.some.injEq] at hr
            obtain ⟨hd, e2, hl, he2, hre, _⟩ :=
              loadFromDisk_some { st with memory := eraseDict st.memory k } k now r0 st2 hld
            exact Or.inr ⟨hd, e2, hl, he2, by rw [← hr, hre]⟩
          · simp [ht] at hr
      · rw [if_neg he] at hr
        simp only [Option.some.injEq] at hr
        exact Or.inl ⟨e, rfl, by simpa using he, hr.symm⟩
  · intro e hm he
    simp only [ResponseCache.get, ← hk, hm, he, if_true]
    unfold ResponseCache.getDiskPhase
    rcases hld : ResponseCache.loadFromDisk
        { st with memory := eraseDict st.memory k } k now with ⟨_ | r0, st2⟩
    · have hmem : st2.memory = eraseDict st.memory k := by
        have := (loadFromDisk_memory_ttl { st with memory := eraseDict st.memory k } k now).1
        rw [hld] at this
        exact this
      dsimp only
      rw [hmem]
      exact Or.inl (lookupDict_eraseDict_self st.memory k)
    · have hmem : st2.memory = eraseDict st.memory k := by
        have := (loadFromDisk_memory_ttl { st with memory := eraseDict st.memory k } k now).1
        rw [hld] at this
        exact this
      have httl : st2.default_ttl = st.default_ttl := by
        have := (loadFromDisk_memory_ttl { st with memory := eraseDict st.memory k } k now).2
        rw [hld] at this
        exact this
      dsimp only
      by_cases ht : r0.isTruthy = true
      · simp only [ht, if_true]
        refine Or.inr ⟨⟨r0, now, now + st2.default_ttl, now⟩, ?_, rfl, by rw [httl]⟩
        exact lookupDict_insertDict_self st2.memory k _
      · simp only [ht, Bool.false_eq_true, if_false]
        rw [hmem]
        exact Or.inl (lookupDict_eraseDict_self st.memory k)
  · intro e hm hdisk he hd
    simp only [ResponseCache.get, ← hk, hm]
    unfold ResponseCache.getDiskPhase
    rw [loadFromDisk_expired st k now e hd hdisk he]
    exact ⟨rfl, lookupDict_eraseDict_self st.disk k⟩

/-- Witness for C4, exercising every hypothesis of the theorem on two
concrete fixtures. At `expiredMemCache` (expired memory entry shadowing a
live durable artifact, read at t = 5): the `get` antecedent of part (i)
holds because the call returns the durable `okResponse`, and the theorem
locates it in an unexpired entry; the expired-memory antecedents of part
(ii) hold for the stored entry, and the theorem yields the purge-or-
promote conclusion. At `expiredDiskCache` (memory miss onto an expired
durable artifact, read at t = 7): all four antecedents of part (iii)
hold, and the theorem yields the miss plus artifact deletion. -/
theorem cache_never_returns_expired_witness :
    lookupDict expiredMemCache.memory (generateKey "http://x/a" "GET" none) =
      some ⟨okResponseB, 0, 1, 0⟩ ∧
    isExpired 5 (⟨okResponseB, 0, 1, 0⟩ : CacheEntry) = true ∧
    (expiredMemCache.get "http://x/a" "GET" none 5).1 = some okResponse ∧
    ((∃ e, lookupDict expiredMemCache.memory (generateKey "http://x/a" "GET" none) =
         some e ∧ isExpired 5 e = false ∧ okResponse = e.response) ∨
      (expiredMemCache.disk_cache = true ∧
        ∃ e, lookupDict expiredMemCache.disk (generateKey "http://x/a" "GET" none) =
          some e ∧ isExpired 5 e = false ∧ okResponse = e.response)) ∧
    (lookupDict ((expiredMemCache.get "http://x/a" "GET" none 5).2).memory
        (generateKey "http://x/a" "GET" none) = none ∨
      (∃ e2, lookupDict ((expiredMemCache.get "http://x/a" "GET" none 5).2).memory
          (generateKey "http://x/a" "GET" none) = some e2 ∧
        e2.cached_at = 5 ∧ e2.expires_at = 5 + expiredMemCache.default_ttl)) ∧
    lookupDict expiredDiskCache.memory (generateKey "http://x/a" "GET" none) = none ∧
    lookupDict expiredDiskCache.disk (generateKey "http://x/a" "GET" none) =
      some ⟨okResponse, 0, 2, 0⟩ ∧
    isExpired 7 (⟨okResponse, 0, 2, 0⟩ : CacheEntry) = true ∧
    expiredDiskCache.disk_cache = true ∧
    ((expiredDiskCache.get "http://x/a" "GET" none 7).1 = none ∧
      lookupDict ((expiredDiskCache.get "http://x/a" "GET" none 7).2).disk
        (generateKey "http://x/a" "GET" none) = none) :=
  ⟨by decide, by decide, by decide,
   (cache_never_returns_expired expiredMemCache "http://x/a" "GET" none 5).1
     okResponse (by decide),
   (cache_never_returns_expired expiredMemCache "http://x/a" "GET" none 5).2.1
     ⟨okResponseB, 0, 1, 0⟩ (by decide) (by decide),
   by decide, by decide, by decide, by decide,
   (cache_never_returns_expired expiredDiskCache "http://x/a" "GET" none 7).2.2
     ⟨okResponse, 0, 2, 0⟩ (by decide) (by decide) (by decide) (by decide)⟩

/-! ## Claim C5 — LRU eviction order of `_cleanup_memory_cache` -/

theorem evict_order_general (l : List (String × CacheEntry)) (kcount : ℕ)
    (hnd : (l.map Prod.fst).Nodup) :
    (l.filter (fun p =>
        !(decide (p.1 ∈ ((List.insertionSort entryLe l).take kcount).map Prod.fst)))).length =
      l.length - kcount ∧
    (∀ p ∈ l, p.1 ∈ ((List.insertionSort entryLe l).take kcount).map Prod.fst →
      ∀ q ∈ l, q.1 ∉ ((List.insertionSort entryLe l).take kcount).map Prod.fst →
        p.2.last_accessed ≤ q.2.last_accessed) := by
  set S := List.insertionSort entryLe l with hS
  set ev := (S.take kcount).map Prod.fst with hev
  have hperm : S.Perm l := List.perm_insertionSort entryLe l
  have hsorted : List.Sorted entryLe S := List.sorted_insertionSort entryLe l
  have hSkeys : (S.map Prod.fst).Nodup := ((hperm.map Prod.fst).nodup_iff).mpr hnd
  have hSnd : S.Nodup := List.Nodup.of_map Prod.fst hSkeys
  have hsplit : S.take kcount ++ S.drop kcount = S := List.take_append_drop kcount S
  have hcross : ∀ a ∈ S.take kcount, ∀ b ∈ S.drop kcount, entryLe a b := by
    have hp : List.Pairwise entryLe (S.take kcount ++ S.drop kcount) := by
      rw [hsplit]
      exact hsorted
    exact (List.pairwise_append.mp hp).2.2
  have hdisj : ∀ a ∈ S.take kcount, a ∉ S.drop kcount := by
    have hnd2 : (S.take kcount ++ S.drop kcount).Nodup := by
      rw [hsplit]
      exact hSnd
    exact (List.nodup_append.mp hnd2).2.2
  have hinj : ∀ p, p ∈ S → ∀ q, q ∈ S → p.1 = q.1 → p = q := by
    intro p hp q hq hpq
    exact List.inj_on_of_nodup_map hSkeys hp hq hpq
  have himem : ∀ p, p ∈ l → p.1 ∈ ev → p ∈ S.take kcount := by
    intro p hpl hpev
    rw [hev] at hpev
    obtain ⟨q, hq, hq1⟩ := List.mem_map.mp hpev
    have hqS : q ∈ S := List.mem_of_mem_take hq
    have hpS : p ∈ S := hperm.mem_iff.mpr hpl
    rw [hinj p hpS q hqS hq1.symm]
    exact hq
  have hkmem : ∀ q, q ∈ l → q.1 ∉ ev → q ∈ S.drop kcount := by
    intro q hql hqev
    have hqS : q ∈ S := hperm.mem_iff.mpr hql
    rw [← hsplit] at hqS
    rcases List.mem_append.mp hqS with h1 | h2
    · exact absurd (hev ▸ List.mem_map_of_mem Prod.fst h1) hqev
    · exact h2
  constructor
  · have h1 : (l.filter (fun p => !(decide (p.1 ∈ ev)))).length =
        (S.filter (fun p => !(decide (p.1 ∈ ev)))).length :=
      ((hperm.filter (fun p => !(decide (p.1 ∈ ev)))).length_eq).symm
    have ht : (S.take kcount).filter (fun p => !(decide (p.1 ∈ ev))) = [] := by
      refine List.filter_eq_nil_iff.mpr ?_
      intro a ha
      simp only [Bool.not_eq_true', decide_eq_false_iff_not, not_not]
      exact hev ▸ List.mem_map_of_mem Prod.fst ha
    have hd : (S.drop kcount).filter (fun p => !(decide (p.1 ∈ ev))) = S.drop kcount := by
      refine List.filter_eq_self.mpr ?_
      intro a ha
      simp only [Bool.not_eq_true', decide_eq_false_iff_not]
      intro hcon
      have haS : a ∈ S := by
        rw [← hsplit]
        exact List.mem_append.mpr (Or.inr ha)
      exact hdisj a (himem a (hperm.mem_iff.mp haS) hcon) ha
    have h2 : S.filter (fun p => !(decide (p.1 ∈ ev))) = S.drop kcount := by
      conv_lhs => rw [← hsplit]
      rw [List.filter_append, ht, hd, List.nil_append]
    rw [h1, h2, List.length_drop, hperm.length_eq]
  · intro p hpl hpev q hql hqev
    exact hcross p (himem p hpl hpev) q (hkmem q hql hqev)

theorem cleanup_no_evict (st : ResponseCache) (now : ℚ)
    (h : (st.memory.filter (fun p => !isExpired now p.2)).length ≤ st.max_size) :
    (st.cleanupMemoryCache now).memory =
      st.memory.filter (fun p => !isExpired now p.2) := by
  simp only [ResponseCache.cleanupMemoryCache]
  rw [if_neg (not_lt.mpr h)]

theorem cleanup_evict_spec (st : ResponseCache) (now : ℚ)
    (hnodup : (st.memory.map Prod.fst).Nodup)
    (h : st.max_size < (st.memory.filter (fun p => !isExpired now p.2)).length) :
    (st.cleanupMemoryCache now).memory.length = st.max_size ∧
    (∀ p ∈ st.memory.filter (fun p => !isExpired now p.2),
       p ∉ (st.cleanupMemoryCache now).memory →
       ∀ q ∈ (st.cleanupMemoryCache now).memory,
         p.2.last_accessed ≤ q.2.last_accessed) := by
  have hlivend : ((st.memory.filter (fun p => !isExpired now p.2)).map Prod.fst).Nodup :=
    List.Nodup.sublist (List.Sublist.map Prod.fst (List.filter_sublist st.memory)) hnodup
  have hgen := evict_order_general (st.memory.filter (fun p => !isExpired now p.2))
    ((st.memory.filter (fun p => !isExpired now p.2)).length - st.max_size) hlivend
  have hres : (st.cleanupMemoryCache now).memory =
      (st.memory.filter (fun p => !isExpired now p.2)).filter (fun p =>
        !(decide (p.1 ∈ ((List.insertionSort entryLe
            (st.memory.filter (fun p => !isExpired now p.2))).take
            ((st.memory.filter (fun p => !isExpired now p.2)).length - st.max_size)).map
            Prod.fst))) := by
    simp only [ResponseCache.cleanupMemoryCache]
    rw [if_pos h]
  constructor
  · rw [hres, hgen.1]
    omega
  · intro p hpl hpm q hqm
    rw [hres] at hpm hqm
    have hqlive : q ∈ st.memory.filter (fun p => !isExpired now p.2) :=
      (List.mem_filter.mp hqm).1
    have hqkey : q.1 ∉ ((List.insertionSort entryLe
        (st.memory.filter (fun p => !isExpired now p.2))).take
        ((st.memory.filter (fun p => !isExpired now p.2)).length - st.max_size)).map
        Prod.fst := by
      have := (List.mem_filter.mp hqm).2
      simpa [Bool.not_eq_true', decide_eq_false_iff_not] using this
    have hpkey : p.1 ∈ ((List.insertionSort entryLe
        (st.memory.filter (fun p => !isExpired now p.2))).take
        ((st.memory.filter (fun p => !isExpired now p.2)).length - st.max_size)).map
        Prod.fst := by
      by_contra hcon
      exact hpm (List.mem_filter.mpr ⟨hpl, by
        simp only [Bool.not_eq_true', decide_eq_false_iff_not]
        exact hcon⟩)
    exact hgen.2 p hpl hpkey q hqlive hqkey

theorem set_memory_eq (st : ResponseCache) (url : String) (response : HTTPResponse)
    (method : String) (params : Option (List (String × String))) (ttl : Option ℚ)
    (now : ℚ) :
    (ResponseCache.set st url response method params ttl now).memory =
      (ResponseCache.cleanupMemoryCache
        { st with
            memory := insertDict st.memory (generateKey url method params)
                        (⟨response, now, now + ttl.getD st.default_ttl, now⟩ : CacheEntry) }
        now).memory := by
  simp only [ResponseCache.set]
  split
  · rfl
  · rfl

/-- C5: inserting through `ResponseCache.set` evicts in ascending
`last_accessed` order until the memory tier is at or below `max_size`.
With `live` the post-insert unexpired entries: when `live` fits, nothing
is evicted; when it does not, the resulting tier has exactly `max_size`
entries and every evicted entry has `last_accessed` at most that of every
kept entry; and in the concrete three-entry instance with `max_size = 3`
where entry C was accessed least recently, inserting a fourth key D
evicts C and keeps A, B and D. -/
theorem lru_eviction_on_set (st : ResponseCache) (url method : String)
    (params : Option (List (String × String))) (response : HTTPResponse)
    (ttl : Option ℚ) (now : ℚ)
    (hnodup : (st.memory.map Prod.fst).Nodup) :
    (let key := generateKey url method params
     let entry : CacheEntry := ⟨response, now, now + ttl.getD st.default_ttl, now⟩
     let live := (insertDict st.memory key entry).filter (fun p => !isExpired now p.2)
     let mem1 := (ResponseCache.set st url response method params ttl now).memory
     (live.length ≤ st.max_size → mem1 = live) ∧
     (st.max_size < live.length → mem1.length = st.max_size) ∧
     (∀ p ∈ live, p ∉ mem1 → ∀ q ∈ mem1, p.2.last_accessed ≤ q.2.last_accessed)) ∧
    (ResponseCache.set demoCache "http://x/d" okResponseB "GET" none none 10).memory.map
        Prod.fst =
      [generateKey "http://x/a" "GET" none, generateKey "http://x/b" "GET" none,
       generateKey "http://x/d" "GET" none] := by
  constructor
  · dsimp only
    rw [set_memory_eq]
    set M : ResponseCache := { st with
      memory := insertDict st.memory (generateKey url method params)
                  (⟨response, now, now + ttl.getD st.default_ttl, now⟩ : CacheEntry) } with hM
    have hMm : M.memory = insertDict st.memory (generateKey url method params)
        (⟨response, now, now + ttl.getD st.default_ttl, now⟩ : CacheEntry) := rfl
    have hMs : M.max_size = st.max_size := rfl
    rw [← hMm, ← hMs]
    have hnd2 : (M.memory.map Prod.fst).Nodup :=
      keys_insertDict_nodup st.memory _ _ hnodup
    refine ⟨fun hle => cleanup_no_evict M now hle,
      fun hlt => (cleanup_evict_spec M now hnd2 hlt).1, ?_⟩
    intro p hpl hpm q hqm
    by_cases hfit : (M.memory.filter (fun p => !isExpired now p.2)).length ≤ M.max_size
    · exact absurd ((cleanup_no_evict M now hfit) ▸ hpl) hpm
    · exact (cleanup_evict_spec M now hnd2 (not_le.mp hfit)).2 p hpl hpm q hqm
  · norm_num +decide [ResponseCache.set, ResponseCache.cleanupMemoryCache, demoCache,
      insertDict, updateDict, lookupDict, generateKey, generateKeyData, isExpired,
      List.insertionSort, List.orderedInsert, entryLe]

/-- Witness for C5 instantiating the general part at the same concrete
three-entry cache. -/
theorem lru_eviction_on_set_witness :
    (demoCache.memory.map Prod.fst).Nodup ∧
    ((let key := generateKey "http://x/d" "GET" none
      let entry : CacheEntry :=
        ⟨okResponseB, 10, 10 + (none : Option ℚ).getD demoCache.default_ttl, 10⟩
      let live := (insertDict demoCache.memory key entry).filter
        (fun p => !isExpired 10 p.2)
      let mem1 :=
        (ResponseCache.set demoCache "http://x/d" okResponseB "GET" none none 10).memory
      (live.length ≤ demoCache.max_size → mem1 = live) ∧
      (demoCache.max_size < live.length → mem1.length = demoCache.max_size) ∧
      (∀ p ∈ live, p ∉ mem1 → ∀ q ∈ mem1, p.2.last_accessed ≤ q.2.last_accessed)) ∧
     (ResponseCache.set demoCache "http://x/d" okResponseB "GET" none none 10).memory.map
         Prod.fst =
       [generateKey "http://x/a" "GET" none, generateKey "http://x/b" "GET" none,
        generateKey "http://x/d" "GET" none]) :=
  ⟨by decide,
   lru_eviction_on_set demoCache "http://x/d" "GET" none okResponseB none 10 (by decide)⟩

end Spyhunt
